import Mathlib

/-!
Verification of the zcm monitoring agent: a shallow embedding of the
Zabbix-style wire codec (internal/zbx/zbx.go), the target validation and
monitoring state machine (internal/monitoring/targets.go) and the item-key
resolver (cmd/zcm/cli.go), with theorems about the claims of the
specification.

Bytes are modelled as `Nat` (values < 256 on all concrete inputs), byte
streams as `List Nat`, Go `time.Duration` and `time.Time` as `Int`
nanoseconds.  An `io.Reader` over a fully buffered connection is modelled
deterministically: a `Read` into a buffer of capacity `c` yields
`min c remaining` bytes (as `bytes.Reader` does, and as a TCP connection
does once the whole frame has arrived).
-/

namespace zbx

/-- Convert an ASCII string to its byte list. -/
def strToBytes (s : String) : List Nat :=
  s.data.map Char.toNat

/-- Go constant `protocol = "ZBXD"`. -/
def protocol : String := "ZBXD"

/-- Go constant `flag byte = 0x01`. -/
def flagByte : Nat := 0x01

/-- Go constant `protocolSize = 4`. -/
def protocolSize : Nat := 4

/-- Go constant `flagSize = 1`. -/
def flagSize : Nat := 1

/-- Go constant `datalenSize = 4`. -/
def datalenSize : Nat := 4

/-- Go constant `reservedSize = 4`. -/
def reservedSize : Nat := 4

/-- Go struct `serverRequestData`: one element of the request `data` array. -/
structure serverRequestData where
  key : List Nat
  timeout : Int
  deriving Repr, DecidableEq

/-- Go struct `serverRequest`: the decoded request payload. -/
structure serverRequest where
  request : List Nat
  data : List serverRequestData
  deriving Repr, DecidableEq

/-- `binary.LittleEndian.Uint32` applied to a 4-byte buffer. -/
def uint32le (b : List Nat) : Nat :=
  b.getD 0 0 + 256 * b.getD 1 0 + 65536 * b.getD 2 0 + 16777216 * b.getD 3 0

/-- `binary.LittleEndian.PutUint64`: the 8 little-endian bytes of `n`. -/
def putUint64le (n : Nat) : List Nat :=
  [n % 256, n / 256 % 256, n / 65536 % 256, n / 16777216 % 256,
   n / 4294967296 % 256, n / 1099511627776 % 256,
   n / 281474976710656 % 256, n / 72057594037927936 % 256]

/-- Go `readHeader(r, what, size)`.  The Go code allocates
`buf := make([]byte, protocolSize)` — a 4-byte buffer — regardless of the
requested `size`; `r.Read(buf)` then yields `n = min protocolSize remaining`
bytes, the rest of the buffer staying zero, and the read fails when
`n < size`.  Returns the (always 4-byte) buffer and the rest of the stream. -/
def readHeader (s : List Nat) (what : String) (size : Nat) :
    Except String (List Nat × List Nat) :=
  let n := min protocolSize s.length
  let buf := s.take protocolSize ++ List.replicate (protocolSize - s.length) 0
  if n < size then
    Except.error ("Error while reading " ++ what ++ ", error: unexpected EOF")
  else
    Except.ok (buf, s.drop protocolSize)

end zbx

/-! A model of the fragment of `encoding/json` the program exercises:
a JSON value tree, a byte-level parser (fuelled recursive descent over the
input bytes, as `json.Unmarshal` tokenises its input), and the unmarshalling
of a parsed value into the `serverRequest` record. -/

namespace gojson

/-- A parsed JSON value.  Object fields keep source order; numbers are kept
as integers, which covers every payload the program ever parses. -/
inductive JValue where
  | jnull : JValue
  | jbool : Bool → JValue
  | jnum : Int → JValue
  | jstr : List Nat → JValue
  | jarr : List JValue → JValue
  | jobj : List (List Nat × JValue) → JValue
  deriving Repr

/-- JSON whitespace bytes: space, tab, newline, carriage return. -/
def isWs (c : Nat) : Bool :=
  c = 32 || c = 9 || c = 10 || c = 13

/-- ASCII digit. -/
def isDigit (c : Nat) : Bool :=
  48 ≤ c && c ≤ 57

/-- Drop leading whitespace. -/
def skipWs : List Nat → List Nat
  | [] => []
  | c :: rest => if isWs c then skipWs rest else c :: rest

/-- Parse a run of digits into a natural number accumulator. -/
def parseDigits (acc : Nat) : List Nat → Option (Nat × List Nat)
  | c :: rest =>
      if isDigit c then
        match parseDigits (acc * 10 + (c - 48)) rest with
        | some r => some r
        | none => some (acc * 10 + (c - 48), rest)
      else none
  | [] => none

/-- Parse the body of a JSON string after the opening quote; supports the
escapes the program can meet on its inputs. -/
def parseStringBody (fuel : Nat) : List Nat → Option (List Nat × List Nat)
  | [] => none
  | c :: rest =>
    match fuel with
    | 0 => none
    | fuel + 1 =>
      if c = 34 then some ([], rest)
      else if c = 92 then
        match rest with
        | e :: rest2 =>
          let dec : Option Nat :=
            if e = 34 then some 34
            else if e = 92 then some 92
            else if e = 47 then some 47
            else if e = 110 then some 10
            else if e = 116 then some 9
            else if e = 114 then some 13
            else none
          match dec with
          | some d =>
            match parseStringBody fuel rest2 with
            | some (body, rem) => some (d :: body, rem)
            | none => none
          | none => none
        | [] => none
      else
        match parseStringBody fuel rest with
        | some (body, rem) => some (c :: body, rem)
        | none => none

mutual

/-- Parse one JSON value from the front of the byte list. -/
def parseVal (fuel : Nat) (s : List Nat) : Option (JValue × List Nat) :=
  match fuel with
  | 0 => none
  | fuel + 1 =>
    match skipWs s with
    | [] => none
    | c :: rest =>
      if c = 110 then  -- 'n' : null
        match rest with
        | 117 :: 108 :: 108 :: rem => some (JValue.jnull, rem)
        | _ => none
      else if c = 116 then  -- 't' : true
        match rest with
        | 114 :: 117 :: 101 :: rem => some (JValue.jbool true, rem)
        | _ => none
      else if c = 102 then  -- 'f' : false
        match rest with
        | 97 :: 108 :: 115 :: 101 :: rem => some (JValue.jbool false, rem)
        | _ => none
      else if c = 34 then  -- opening quote
        match parseStringBody (rest.length + 1) rest with
        | some (body, rem) => some (JValue.jstr body, rem)
        | none => none
      else if c = 45 then  -- minus sign
        match parseDigits 0 rest with
        | some (n, rem) => some (JValue.jnum (-(n : Int)), rem)
        | none => none
      else if isDigit c then
        match parseDigits 0 (c :: rest) with
        | some (n, rem) => some (JValue.jnum (n : Int), rem)
        | none => none
      else if c = 91 then  -- opening bracket
        match skipWs rest with
        | 93 :: rem => some (JValue.jarr [], rem)
        | rest2 => parseArrElems fuel rest2
      else if c = 123 then  -- opening brace
        match skipWs rest with
        | 125 :: rem => some (JValue.jobj [], rem)
        | rest2 => parseObjFields fuel rest2
      else none

/-- Parse the elements of a non-empty array, starting at the first element. -/
def parseArrElems (fuel : Nat) (s : List Nat) : Option (JValue × List Nat) :=
  match fuel with
  | 0 => none
  | fuel + 1 =>
    match parseVal fuel s with
    | none => none
    | some (v, rem) =>
      match skipWs rem with
      | 44 :: rem2 =>  -- comma
        match parseArrElems fuel rem2 with
        | some (JValue.jarr vs, rem3) => some (JValue.jarr (v :: vs), rem3)
        | _ => none
      | 93 :: rem2 => some (JValue.jarr [v], rem2)
      | _ => none

/-- Parse the fields of a non-empty object, starting at the first key. -/
def parseObjFields (fuel : Nat) (s : List Nat) : Option (JValue × List Nat) :=
  match fuel with
  | 0 => none
  | fuel + 1 =>
    match skipWs s with
    | 34 :: rest =>
      match parseStringBody (rest.length + 1) rest with
      | none => none
      | some (key, rem) =>
        match skipWs rem with
        | 58 :: rem2 =>  -- colon
          match parseVal fuel rem2 with
          | none => none
          | some (v, rem3) =>
            match skipWs rem3 with
            | 44 :: rem4 =>  -- comma
              match parseObjFields fuel rem4 with
              | some (JValue.jobj fs, rem5) =>
                some (JValue.jobj ((key, v) :: fs), rem5)
              | _ => none
            | 125 :: rem4 => some (JValue.jobj [(key, v)], rem4)
            | _ => none
        | _ => none
    | _ => none

end

/-- Parse a complete JSON document: one value followed only by whitespace. -/
def parseDoc (s : List Nat) : Option JValue :=
  match parseVal (s.length + 1) s with
  | some (v, rem) => if skipWs rem = [] then some v else none
  | none => none

/-- Last value bound to a key in an object field list (`json.Unmarshal`
keeps the last duplicate). -/
def lookupField (fields : List (List Nat × JValue)) (key : List Nat) :
    Option JValue :=
  (fields.filter (fun f => f.fst = key)).getLast?.map Prod.snd

end gojson

namespace zbx

open gojson

/-- Unmarshal a parsed value into one `data` array element
(`serverRequestData`): must be an object; `key` must be a string when
present, `timeout` an integer when present; unknown fields are ignored. -/
def unmarshalData (v : JValue) : Except String serverRequestData :=
  match v with
  | JValue.jobj fields =>
    match lookupField fields (strToBytes "key") with
    | some (JValue.jstr k) =>
      match lookupField fields (strToBytes "timeout") with
      | some (JValue.jnum t) => Except.ok ⟨k, t⟩
      | some _ => Except.error "json: cannot unmarshal value into field timeout"
      | none => Except.ok ⟨k, 0⟩
    | some _ => Except.error "json: cannot unmarshal value into field key"
    | none =>
      match lookupField fields (strToBytes "timeout") with
      | some (JValue.jnum t) => Except.ok ⟨[], t⟩
      | some _ => Except.error "json: cannot unmarshal value into field timeout"
      | none => Except.ok ⟨[], 0⟩
  | _ => Except.error "json: cannot unmarshal value into serverRequestData"

/-- Unmarshal each element of the `data` array. -/
def unmarshalDataList (vs : List JValue) :
    Except String (List serverRequestData) :=
  match vs with
  | [] => Except.ok []
  | v :: rest => do
    let d ← unmarshalData v
    let ds ← unmarshalDataList rest
    Except.ok (d :: ds)

/-- Go `json.Unmarshal(b, &serverRequest{})`: parse the bytes, then fill the
record.  A top-level `null` leaves the zero value; an object fills the
matching fields (absent fields keep their zero values, unknown fields are
ignored); any other top-level value or a parse failure is an error. -/
def unmarshalServerRequest (b : List Nat) : Except String serverRequest :=
  match parseDoc b with
  | none => Except.error "invalid character in JSON input"
  | some JValue.jnull => Except.ok ⟨[], []⟩
  | some (JValue.jobj fields) => do
    let req ←
      match lookupField fields (strToBytes "request") with
      | some (JValue.jstr r) => Except.ok r
      | some _ =>
          Except.error "json: cannot unmarshal value into field request"
      | none => Except.ok []
    let data ←
      match lookupField fields (strToBytes "data") with
      | some (JValue.jarr vs) => unmarshalDataList vs
      | some JValue.jnull => Except.ok []
      | some _ => Except.error "json: cannot unmarshal value into field data"
      | none => Except.ok []
    Except.ok ⟨req, data⟩
  | some _ => Except.error "json: cannot unmarshal value into serverRequest"

/-- Go `decode(r)`: read the protocol tag, flag byte, payload length,
reserved bytes and payload through `readHeader`, in order, then unmarshal
the payload into a `serverRequest`. -/
def decode (s : List Nat) : Except String serverRequest := do
  let (b, s1) ← readHeader s "protocol" protocolSize
  if b ≠ strToBytes protocol then
    Except.error "Unsupported protocol"
  else do
  let (b, s2) ← readHeader s1 "flag" flagSize
  let headerFlag := b.getD 0 0
  if headerFlag ≠ flagByte then
    Except.error "Unsupported flag"
  else do
  let (b, s3) ← readHeader s2 "data length" datalenSize
  let dataLen := uint32le b
  let (_, s4) ← readHeader s3 "reserved bytes" reservedSize
  let (b, _) ← readHeader s4 "data" dataLen
  unmarshalServerRequest b

end zbx

/-! The values the dispatch function can return over the wire: Go
`interface{}` restricted to what the item handler produces — `nil`, an
integer (`int` / `int64`) or a string. -/

namespace zbx

/-- A response value: `nil`, an integer or a string. -/
inductive ZValue where
  | vnull : ZValue
  | vint : Int → ZValue
  | vstr : String → ZValue
  deriving Repr, DecidableEq

open gojson

/-- Lower hex digit byte. -/
def hexDigit (n : Nat) : Nat :=
  if n < 10 then 48 + n else 87 + n

/-- How `encoding/json` escapes one byte inside a string literal:
quote, backslash, newline, carriage return and tab get two-byte escapes,
other control bytes get `\u00xx`, and the HTML-sensitive bytes
60, 62, 38 get `<`, `>`, `&`. -/
def escapeByte (c : Nat) : List Nat :=
  if c = 34 then [92, 34]
  else if c = 92 then [92, 92]
  else if c = 10 then [92, 110]
  else if c = 13 then [92, 114]
  else if c = 9 then [92, 116]
  else if c < 32 then [92, 117, 48, 48, hexDigit (c / 16), hexDigit (c % 16)]
  else if c = 60 then [92, 117, 48, 48, 51, 99]
  else if c = 62 then [92, 117, 48, 48, 51, 101]
  else if c = 38 then [92, 117, 48, 48, 50, 54]
  else [c]

/-- Escape every byte of a string body. -/
def escapeBytes (s : List Nat) : List Nat :=
  s.flatMap escapeByte

mutual

/-- Go `json.Marshal` on a parsed-value tree: objects keep field order,
no added whitespace. -/
def marshalJValue : JValue → List Nat
  | JValue.jnull => strToBytes "null"
  | JValue.jbool true => strToBytes "true"
  | JValue.jbool false => strToBytes "false"
  | JValue.jnum n => strToBytes (toString n)
  | JValue.jstr s => 34 :: escapeBytes s ++ [34]
  | JValue.jarr vs => 91 :: marshalArr vs ++ [93]
  | JValue.jobj fs => 123 :: marshalFields fs ++ [125]

/-- Comma-separated marshalled array elements. -/
def marshalArr : List JValue → List Nat
  | [] => []
  | [v] => marshalJValue v
  | v :: rest => marshalJValue v ++ 44 :: marshalArr rest

/-- Comma-separated marshalled object fields. -/
def marshalFields : List (List Nat × JValue) → List Nat
  | [] => []
  | [(k, v)] => 34 :: escapeBytes k ++ 34 :: 58 :: marshalJValue v
  | (k, v) :: rest =>
      34 :: escapeBytes k ++ 34 :: 58 :: marshalJValue v ++ 44 :: marshalFields rest

end

/-- The response value as a parsed-value tree. -/
def ZValue.toJValue : ZValue → JValue
  | ZValue.vnull => JValue.jnull
  | ZValue.vint n => JValue.jnum n
  | ZValue.vstr s => JValue.jstr (strToBytes s)

/-- The Go struct literal `agentResponse{Version: "7.0.0", Variant: 2,
Data: []agentResponseData{{Value: value}}}` as a parsed-value tree,
fields in struct order. -/
def agentResponseDoc (value : ZValue) : JValue :=
  JValue.jobj
    [(strToBytes "version", JValue.jstr (strToBytes "7.0.0")),
     (strToBytes "variant", JValue.jnum 2),
     (strToBytes "data",
       JValue.jarr [JValue.jobj [(strToBytes "value", value.toJValue)]])]

/-- Go `encode(value)`: marshal the `agentResponse` document, then emit the
protocol tag, the flag byte, the 8-byte little-endian length of the JSON
document and the document itself, by successive appends. -/
def encode (value : ZValue) : List Nat :=
  let jsonData := marshalJValue (agentResponseDoc value)
  let dataLen := putUint64le jsonData.length
  let res := strToBytes protocol
  let res := res ++ [flagByte]
  let res := res ++ dataLen
  let res := res ++ jsonData
  res

/-- Outcome of one connection: closed after a decode failure with nothing
written, closed after writing the response bytes, or a runtime panic. -/
inductive ConnOutcome where
  | closedNoWrite : ConnOutcome
  | wrote : List Nat → ConnOutcome
  | panicked : ConnOutcome
  deriving Repr, DecidableEq

/-- Go `handleConn(conn, handler)`: decode the request; on failure log and
close without writing.  On success evaluate `handler(req.Data[0].Key)` —
an unguarded index, which panics when the data array is empty — then encode
the value and write it back. -/
def handleConn (handler : List Nat → ZValue) (s : List Nat) : ConnOutcome :=
  match decode s with
  | Except.error _ => ConnOutcome.closedNoWrite
  | Except.ok req =>
    match req.data.get? 0 with
    | none => ConnOutcome.panicked
    | some d => ConnOutcome.wrote (encode (handler d.key))

/-- One iteration's outcome of `l.Accept()`: a successful accept, a
transient error, or `net.ErrClosed`. -/
inductive AcceptEvent where
  | accepted : AcceptEvent
  | tempErr : AcceptEvent
  | closed : AcceptEvent
  deriving Repr, DecidableEq

/-- Delay step of the accept loop in nanoseconds: from the current
`tempDelay`, a transient error yields 5ms when the delay was zero, else
double it, capped at 1s. -/
def nextDelay (tempDelay : Int) : Int :=
  let d := if tempDelay = 0 then 5000000 else tempDelay * 2
  if d > 1000000000 then 1000000000 else d

/-- The accept loop of Go `ListenAndServe`, run over a finite schedule of
accept outcomes: returns the list of back-off sleeps performed (ns) and
whether the loop returned the `net.ErrClosed` error.  A successful accept
spawns a handler and continues — the source never resets `tempDelay`. -/
def acceptLoop (tempDelay : Int) : List AcceptEvent → List Int × Bool
  | [] => ([], false)
  | AcceptEvent.closed :: _ => ([], true)
  | AcceptEvent.accepted :: rest => acceptLoop tempDelay rest
  | AcceptEvent.tempErr :: rest =>
    let d := nextDelay tempDelay
    let (ds, r) := acceptLoop d rest
    (d :: ds, r)

end zbx

/-! The monitoring side: target configuration validation
(internal/monitoring/targets.go) and the item-key resolver
(cmd/zcm/cli.go).  `json.Compact` and `os.Getenv` are external stdlib
collaborators and appear as function parameters `compact` and `env`
(`env name = ""` models an unset variable, as `os.Getenv` reports it). -/

namespace monitoring

/-- Go struct `authorization`. -/
structure authorization where
  type : String
  username : String
  password : String
  token : String
  deriving Repr, DecidableEq

/-- The zero `authorization{}` value. -/
def authorization.empty : authorization := ⟨"", "", "", ""⟩

/-- Go struct `targetInfo`: one target's configuration.  `FormData = none`
models a nil map. -/
structure targetInfo where
  Url : String
  Authorization : authorization
  Interval : Int
  Method : String
  FormData : Option (List (String × String))
  Json : String
  deriving Repr, DecidableEq

/-- Character class `[a-zA-Z_]` of the `env` placeholder pattern. -/
def isIdentStart (c : Char) : Bool :=
  (65 ≤ c.toNat && c.toNat ≤ 90) || (97 ≤ c.toNat && c.toNat ≤ 122) || c.toNat = 95

/-- Character class `[a-zA-Z_0-9]`. -/
def isIdentChar (c : Char) : Bool :=
  isIdentStart c || (48 ≤ c.toNat && c.toNat ≤ 57)

/-- Longest prefix of identifier characters and the remainder. -/
def takeIdent : List Char → List Char × List Char
  | [] => ([], [])
  | c :: rest =>
    if isIdentChar c then
      let (i, r) := takeIdent rest
      (c :: i, r)
    else ([], c :: rest)

/-- Try to match the placeholder regular expression at the head of the list:
an opening brace, `env:`, one `[a-zA-Z_]`, then `[a-zA-Z_0-9]*`, then a
closing brace.  Returns (full match, capture group, remainder). -/
def matchEnvAt (s : List Char) : Option (List Char × List Char × List Char) :=
  match s with
  | b :: e :: n :: v :: col :: c :: rest =>
    if b = Char.ofNat 123 && e = 'e' && n = 'n' && v = 'v' && col = ':' &&
        isIdentStart c then
      let (i, r) := takeIdent rest
      match r with
      | rb :: rest2 =>
        if rb = Char.ofNat 125 then
          some (b :: e :: n :: v :: col :: c :: (i ++ [rb]), c :: i, rest2)
        else none
      | [] => none
    else none
  | _ => none

/-- `regexp.FindAllStringSubmatch` for the placeholder pattern: scan left to
right collecting non-overlapping (full match, capture group) pairs. -/
def findEnvMatches (fuel : Nat) (s : List Char) : List (List Char × List Char) :=
  match fuel with
  | 0 => []
  | fuel + 1 =>
    match s with
    | [] => []
    | c :: rest =>
      match matchEnvAt (c :: rest) with
      | some (full, grp, after) => (full, grp) :: findEnvMatches fuel after
      | none => findEnvMatches fuel rest

/-- `strings.ReplaceAll s pat repl` (`pat` nonempty on every use). -/
def replaceAll (fuel : Nat) (s pat repl : List Char) : List Char :=
  match fuel with
  | 0 => s
  | fuel + 1 =>
    match s with
    | [] => []
    | c :: rest =>
      if pat.isPrefixOf (c :: rest) then
        repl ++ replaceAll fuel (List.drop pat.length (c :: rest)) pat repl
      else c :: replaceAll fuel rest pat repl

/-- Go `replaceWithEnvVar(value)`: find every `env` placeholder; an unset
variable is an error, otherwise every occurrence of the full match is
replaced by the variable's value, one match at a time. -/
def replaceWithEnvVar (env : String → String) (value : String) :
    Except String String :=
  let found := findEnvMatches value.data.length value.data
  found.foldl
    (fun acc m =>
      match acc with
      | Except.error e => Except.error e
      | Except.ok v =>
        let envVal := env (String.mk m.snd)
        if envVal = "" then
          Except.error
            ("environment variable " ++ String.mk m.snd ++ " is not present")
        else
          Except.ok (String.mk
            (replaceAll (v.data.length + envVal.length * v.data.length + 1)
              v.data m.fst envVal.data)))
    (Except.ok value)

/-- Go `strings.ToUpper` on the method strings the program meets: uppercase
every character. -/
def toUpperGo (s : String) : String :=
  String.mk (s.data.map Char.toUpper)

/-- Go `isHTTPMethodSupported`. -/
def isHTTPMethodSupported (method : String) : Bool :=
  method = "GET" || method = "POST"

/-- Method block of `checkAndPrepareTargets`: default an empty method to
GET, otherwise uppercase it and require a supported method. -/
def checkMethod (k : String) (v : targetInfo) : Except String targetInfo :=
  if v.Method = "" then
    Except.ok { v with Method := "GET" }
  else
    let m := toUpperGo v.Method
    if isHTTPMethodSupported m then
      Except.ok { v with Method := m }
    else
      Except.error (k ++ ": http method " ++ m ++ " not supported")

/-- POST block of `checkAndPrepareTargets`: a POST target must carry
exactly one of a json body and form data, and a json body must compact. -/
def checkPostBody (compact : String → Except String String) (k : String)
    (v : targetInfo) : Except String targetInfo :=
  if v.Method = "POST" then
    if v.Json = "" && v.FormData = none then
      Except.error (k ++ ": when http method is POST field json or form-data is required")
    else if v.Json ≠ "" && v.FormData ≠ none then
      Except.error (k ++ ": field json and form-data cannot be filled together")
    else if v.Json ≠ "" then
      match compact v.Json with
      | Except.ok j => Except.ok { v with Json := j }
      | Except.error e =>
        Except.error (k ++ ": error while parsing json data, error: " ++ e)
    else
      Except.ok v
  else
    Except.ok v

/-- Authorization block of `checkAndPrepareTargets`: a non-zero
authorization needs a type and exactly one of a token or a username with a
password. -/
def checkAuthBlock (k : String) (a : authorization) : Except String Unit :=
  if a ≠ authorization.empty then
    if a.type = "" then
      Except.error (k ++ ": field type is required for authorization")
    else if a.token ≠ "" && (a.username ≠ "" || a.password ≠ "") then
      Except.error (k ++ ": token cannot be filled along with username and password")
    else if a.token = "" && (a.username = "" || a.password = "") then
      Except.error (k ++ ": token or username and password is required for authorization")
    else
      Except.ok ()
  else
    Except.ok ()

/-- Placeholder-substitution block of `checkAndPrepareTargets`, applied to
the url and the four authorization fields, in source order. -/
def applyEnvVars (env : String → String) (v : targetInfo) :
    Except String targetInfo := do
  let url ← replaceWithEnvVar env v.Url
  let token ← replaceWithEnvVar env v.Authorization.token
  let password ← replaceWithEnvVar env v.Authorization.password
  let username ← replaceWithEnvVar env v.Authorization.username
  let type ← replaceWithEnvVar env v.Authorization.type
  Except.ok { v with Url := url, Authorization := ⟨type, username, password, token⟩ }

/-- Go `checkAndPrepareTargets`, body of the loop for one entry `(k, v)`:
default the interval, require a url, then run the method, POST-body,
authorization and placeholder blocks in source order. -/
def checkAndPrepareTarget (compact : String → Except String String)
    (env : String → String) (k : String) (v : targetInfo) :
    Except String targetInfo := do
  let v := if v.Interval = 0 then { v with Interval := 10000 } else v
  if v.Url = "" then
    Except.error (k ++ ": field url not specifaied")
  else do
    let v ← checkMethod k v
    let v ← checkPostBody compact k v
    let _ ← checkAuthBlock k v.Authorization
    applyEnvVars env v

/-- Go `checkAndPrepareTargets` over the whole configuration, entry by
entry; the first failing entry aborts the load. -/
def checkAndPrepareTargets (compact : String → Except String String)
    (env : String → String) :
    List (String × targetInfo) → Except String (List (String × targetInfo))
  | [] => Except.ok []
  | (k, v) :: rest => do
    let v' ← checkAndPrepareTarget compact env k v
    let rest' ← checkAndPrepareTargets compact env rest
    Except.ok ((k, v') :: rest')

end monitoring

namespace monitoring

/-- Go struct `targetData`: the per-target latest probe outcome kept in the
result store.  Times and durations are `Int` nanoseconds. -/
structure targetData where
  Start : Int
  Running : Bool
  LastResponseTime : Int
  LastStatus : String
  LastStatusCode : Int
  deriving Repr, DecidableEq

/-- The zero value `targetData{}` stored for every target when
`StartMonitoring` begins. -/
def initialData : targetData :=
  { Start := 0, Running := false, LastResponseTime := 0,
    LastStatus := "", LastStatusCode := 0 }

/-- The store update just before a probe is issued: `data.Start = time.Now()`
and `data.Running = true`. -/
def beginProbe (d : targetData) (now : Int) : targetData :=
  { d with Start := now, Running := true }

/-- The store update after a probe returns at time `now`:
`LastResponseTime = time.Since(Start)`, `Running = false`, then the status
fields from the response when there is one, or zero/empty on a request
error. -/
def endProbe (d : targetData) (now : Int) (response : Option (Int × String)) :
    targetData :=
  let d := { d with LastResponseTime := now - d.Start, Running := false }
  match response with
  | some (code, status) => { d with LastStatus := status, LastStatusCode := code }
  | none => { d with LastStatus := "", LastStatusCode := 0 }

/-- Go `(t *Targets).GetData(key)`: the snapshot stored under `key`, as an
association-list lookup. -/
def getData (store : List (String × targetData)) (key : String) :
    Option targetData :=
  match store with
  | [] => none
  | (name, d) :: rest => if key = name then some d else getData rest key

/-- `time.Duration.Milliseconds()`: nanoseconds divided by 10^6, truncated
toward zero as Go integer division is. -/
def msOf (d : Int) : Int := d.tdiv 1000000

/-- Index of the last `'.'` in a character list (`strings.LastIndex`),
`none` when absent. -/
def lastDotIndex : List Char → Option Nat
  | [] => none
  | c :: rest =>
    match lastDotIndex rest with
    | some i => some (i + 1)
    | none => if c = '.' then some 0 else none

/-- Go `itemHandler` (cmd/zcm/cli.go) at query time `now`: split the item
key at the last dot; no dot, an unknown target or an unknown parameter
yield `nil`; `responseTime` reports the last duration in whole
milliseconds, bumped to the ongoing elapsed time while a probe is running;
`statusCode` and `status` report the stored fields. -/
def itemHandler (store : List (String × targetData)) (now : Int)
    (key : String) : zbx.ZValue :=
  match lastDotIndex key.data with
  | none => zbx.ZValue.vnull
  | some sep =>
    let itemKey := String.mk (key.data.take sep)
    let param := String.mk (key.data.drop (sep + 1))
    match getData store itemKey with
    | none => zbx.ZValue.vnull
    | some data =>
      if param = "responseTime" then
        let v := msOf data.LastResponseTime
        let v :=
          if data.Running && v < msOf (now - data.Start) then
            msOf (now - data.Start)
          else v
        zbx.ZValue.vint v
      else if param = "statusCode" then
        zbx.ZValue.vint data.LastStatusCode
      else if param = "status" then
        zbx.ZValue.vstr data.LastStatus
      else
        zbx.ZValue.vnull

end monitoring

/-! Concrete inputs and spec-side comparison definitions used by the
theorems below. -/

namespace zbx

/-- The little-endian 4-byte encoding of a payload length, for building
request frames. -/
def putUint32le (n : Nat) : List Nat :=
  [n % 256, n / 256 % 256, n / 65536 % 256, n / 16777216 % 256]

/-- The payload of a well-formed request frame of the declared shape. -/
def samplePayload : List Nat :=
  strToBytes "\x7b\"request\":\"ping\",\"data\":[\x7b\"key\":\"a.b\",\"timeout\":3\x7d]\x7d"

/-- A well-formed request frame: tag, flag 0x01, 4-byte little-endian
payload length, 4 zero reserved bytes, then the payload. -/
def sampleRequestFrame : List Nat :=
  strToBytes protocol ++ [flagByte] ++ putUint32le samplePayload.length ++
    [0, 0, 0, 0] ++ samplePayload

/-- A 20-byte stream whose bytes at positions 8–11 read as length 4 and
whose bytes at positions 16–19 are the JSON document `null`.  Under the
source's 4-byte reads this stream decodes successfully. -/
def nullPayloadFrame : List Nat :=
  strToBytes protocol ++ [flagByte, 0, 0, 0] ++ [4, 0, 0, 0] ++ [0, 0, 0, 0] ++
    strToBytes "null"

/-- The accept-loop back-off as the specification words it: identical to
`acceptLoop` except that a successful accept resets the delay to 0.  Used
only to compare the specified behaviour with the source's. -/
def acceptLoopSpecModel (tempDelay : Int) :
    List AcceptEvent → List Int × Bool
  | [] => ([], false)
  | AcceptEvent.closed :: _ => ([], true)
  | AcceptEvent.accepted :: rest => acceptLoopSpecModel 0 rest
  | AcceptEvent.tempErr :: rest =>
    let d := nextDelay tempDelay
    let (ds, r) := acceptLoopSpecModel d rest
    (d :: ds, r)

end zbx

namespace monitoring

/-- A stub for the external `json.Compact` collaborator that accepts its
input unchanged; the concrete targets below never reach the compaction
branch. -/
def compactStub (s : String) : Except String String := Except.ok s

/-- A stub environment with every variable unset; the concrete targets
below contain no placeholder. -/
def envUnset : String → String := fun _ => ""

/-- A configuration with one GET target whose interval is configured
negative. -/
def cfgNegativeInterval : List (String × targetInfo) :=
  [("shop", { Url := "localhost", Authorization := authorization.empty,
              Interval := -1, Method := "", FormData := none, Json := "" })]

end monitoring

/-! Theorems about the wire codec claims. -/

namespace zbx

/-- Claim C1: the specification says that for a well-formed request frame
every read yields at least the expected byte count and decode succeeds.
In the source `readHeader` allocates a `protocolSize`-byte (4-byte) buffer
whatever `size` it was asked for, so (i) any read requesting more than 4
bytes fails on every stream, and (ii) decoding the well-formed sample
frame — tag, flag, little-endian length, reserved bytes, a payload of the
declared JSON shape — fails instead of succeeding. -/
theorem readHeader_small_buffer_rejects_wellformed_frame :
    (∀ (s : List Nat) (what : String) (size : Nat), 4 < size →
      (readHeader s what size).isOk = false) ∧
    (decode sampleRequestFrame).isOk = false := by
  constructor
  · intro s what size h
    have hlt : min 4 s.length < size := lt_of_le_of_lt (min_le_left _ _) h
    simp [readHeader, protocolSize, hlt, Except.isOk, Except.toBool]
  · rfl

/-- Witness for C1: a 5-byte read fails even on a 6-byte stream, and the
sample frame is rejected. -/
theorem readHeader_small_buffer_witness :
    (readHeader [1, 2, 3, 4, 5, 6] "data" 5).isOk = false ∧
    (decode sampleRequestFrame).isOk = false :=
  ⟨readHeader_small_buffer_rejects_wellformed_frame.1 [1, 2, 3, 4, 5, 6]
      "data" 5 (by decide),
   readHeader_small_buffer_rejects_wellformed_frame.2⟩

/-- Claim C2: a stream whose first four bytes differ from the tag "ZBXD",
or whose fifth (flag) byte differs from 0x01 after a correct tag, makes
decode fail, and the connection handler closes the connection without
writing any bytes back. -/
theorem badTag_or_badFlag_closes_without_write :
    (∀ (b0 b1 b2 b3 : Nat) (rest : List Nat) (handler : List Nat → ZValue),
      [b0, b1, b2, b3] ≠ strToBytes "ZBXD" →
      handleConn handler (b0 :: b1 :: b2 :: b3 :: rest) =
        ConnOutcome.closedNoWrite) ∧
    (∀ (f : Nat) (rest : List Nat) (handler : List Nat → ZValue),
      f ≠ flagByte →
      handleConn handler (strToBytes "ZBXD" ++ f :: rest) =
        ConnOutcome.closedNoWrite) := by
  constructor
  · intro b0 b1 b2 b3 rest handler h
    simp only [handleConn, decode, readHeader, protocolSize, protocol]
    simp only [List.length_cons, List.take, List.drop]
    have hmin : min 4 (rest.length + 1 + 1 + 1 + 1) = 4 := by omega
    simp [hmin, h, bind, Except.bind]
  · intro f rest handler h
    simp only [handleConn, decode, readHeader, protocolSize, flagSize,
      strToBytes, protocol]
    simp only [List.length_cons, List.take, List.drop, List.append_nil]
    have hmin : min 4 (rest.length + 5) = 4 := by omega
    have hmin2 : ¬ (min 4 (rest.length + 1) < 1) := by omega
    simp [hmin, hmin2, h, bind, Except.bind]

/-- Witness for C2: a zero tag, and a correct tag with flag byte 0x02,
both close the connection with nothing written. -/
theorem badTag_or_badFlag_witness :
    handleConn (fun _ => ZValue.vnull) [0, 0, 0, 0] =
      ConnOutcome.closedNoWrite ∧
    handleConn (fun _ => ZValue.vnull) (strToBytes "ZBXD" ++ 2 :: [0]) =
      ConnOutcome.closedNoWrite :=
  ⟨badTag_or_badFlag_closes_without_write.1 0 0 0 0 []
      (fun _ => ZValue.vnull) (by decide),
   badTag_or_badFlag_closes_without_write.2 2 [0]
      (fun _ => ZValue.vnull) (by decide)⟩

/-- Claim C3: for every value, encode emits exactly the tag "ZBXD", the
flag byte 0x01, the 8-byte little-endian length of the JSON document and
the document `version 7.0.0 / variant 2 / data [value]`, in that order and
nothing else. -/
theorem encode_frame_layout (v : ZValue) :
    encode v =
      strToBytes "ZBXD" ++ [flagByte] ++
        putUint64le (marshalJValue (agentResponseDoc v)).length ++
        marshalJValue (agentResponseDoc v) ∧
    marshalJValue (agentResponseDoc v) =
      strToBytes "\x7b\"version\":\"7.0.0\",\"variant\":2,\"data\":[\x7b\"value\":" ++
        marshalJValue v.toJValue ++ strToBytes "\x7d]\x7d" ∧
    (putUint64le (marshalJValue (agentResponseDoc v)).length).length = 8 := by
  refine ⟨rfl, ?_, rfl⟩
  simp [marshalJValue, agentResponseDoc, marshalFields, marshalArr,
    strToBytes, escapeBytes, escapeByte, hexDigit,
    show List.map Char.toNat (toString (2 : Int)).data = [50] from rfl]

/-- Claim C4: the specification implies no accepted input leaves the data
array empty, so `req.Data[0]` is always in bounds.  The source accepts the
20-byte stream `nullPayloadFrame`, whose (misaligned) payload read returns
the JSON document `null`, producing an empty data array — and the handler
then panics on the out-of-range index, for every dispatch function. -/
theorem decode_accepts_empty_data_then_panics :
    decode nullPayloadFrame = Except.ok ⟨[], []⟩ ∧
    ∀ handler : List Nat → ZValue,
      handleConn handler nullPayloadFrame = ConnOutcome.panicked :=
  ⟨rfl, fun _ => rfl⟩

end zbx

namespace zbx

/-- Every tail of the accept loop's sleep sequence follows the step
function, whatever delay the loop starts from. -/
theorem acceptLoop_chain (d0 : Int) (events : List AcceptEvent) :
    List.Chain' (fun a b => b = nextDelay a) (d0 :: (acceptLoop d0 events).fst) := by
  induction events generalizing d0 with
  | nil => simp [acceptLoop]
  | cons e rest ih =>
    cases e with
    | closed => simp [acceptLoop]
    | accepted => simpa [acceptLoop] using ih d0
    | tempErr =>
      simp only [acceptLoop]
      exact List.Chain'.cons rfl (ih (nextDelay d0))

/-- Every sleep the accept loop performs lies between 5ms and 1s, provided
the starting delay is zero or already in that range. -/
theorem acceptLoop_bounds (d0 : Int) (events : List AcceptEvent)
    (h : d0 = 0 ∨ (5000000 ≤ d0 ∧ d0 ≤ 1000000000)) :
    ∀ d ∈ (acceptLoop d0 events).fst, 5000000 ≤ d ∧ d ≤ 1000000000 := by
  induction events generalizing d0 with
  | nil => simp [acceptLoop]
  | cons e rest ih =>
    cases e with
    | closed => simp [acceptLoop]
    | accepted => simpa [acceptLoop] using ih d0 h
    | tempErr =>
      have hnd : 5000000 ≤ nextDelay d0 ∧ nextDelay d0 ≤ 1000000000 := by
        rcases h with h | h
        · simp [nextDelay, h]
        · simp only [nextDelay]
          split <;> split <;> omega
      intro d hd
      simp only [acceptLoop] at hd
      rcases List.mem_cons.mp hd with rfl | hd
      · exact hnd
      · exact ih (nextDelay d0) (Or.inr hnd) d hd

/-- The accept loop returns the listener-closed error exactly when the
schedule contains a closed event. -/
theorem acceptLoop_closed_iff (d0 : Int) (events : List AcceptEvent) :
    ((acceptLoop d0 events).snd = true ↔ AcceptEvent.closed ∈ events) := by
  induction events generalizing d0 with
  | nil => simp [acceptLoop]
  | cons e rest ih =>
    cases e with
    | closed => simp [acceptLoop]
    | accepted => simp [acceptLoop, ih d0]
    | tempErr => simp [acceptLoop, ih (nextDelay d0)]

/-- Counterexample to claim C7: after a transient failure, a successful
accept and another transient failure, the source sleeps 5ms then 10ms —
the delay was not reset by the successful accept — while the specified
behaviour (reset to 0 after a successful accept) would sleep 5ms twice. -/
theorem acceptLoop_reset_counterexample :
    (acceptLoop 0
        [AcceptEvent.tempErr, AcceptEvent.accepted, AcceptEvent.tempErr]).fst
      = [5000000, 10000000] ∧
    (acceptLoopSpecModel 0
        [AcceptEvent.tempErr, AcceptEvent.accepted, AcceptEvent.tempErr]).fst
      = [5000000, 5000000] ∧
    (acceptLoop 0
        [AcceptEvent.tempErr, AcceptEvent.accepted, AcceptEvent.tempErr]).fst
      ≠ (acceptLoopSpecModel 0
          [AcceptEvent.tempErr, AcceptEvent.accepted, AcceptEvent.tempErr]).fst :=
  ⟨rfl, rfl, by decide⟩

/-- Claim C7 as amended: over any schedule of accept outcomes, the first
back-off sleep is 5ms, each later sleep is the step (double, capped at 1s)
of the one before it — consecutive or not, since a successful accept does
not reset the delay — every sleep lies between 5ms and 1s, and the loop
returns the listener-closed error exactly when the listener closes. -/
theorem acceptLoop_backoff_behaviour (events : List AcceptEvent) :
    (∀ d ds, (acceptLoop 0 events).fst = d :: ds → d = 5000000) ∧
    List.Chain' (fun a b => b = nextDelay a) (0 :: (acceptLoop 0 events).fst) ∧
    (∀ d ∈ (acceptLoop 0 events).fst, 5000000 ≤ d ∧ d ≤ 1000000000) ∧
    ((acceptLoop 0 events).snd = true ↔ AcceptEvent.closed ∈ events) := by
  refine ⟨?_, acceptLoop_chain 0 events, acceptLoop_bounds 0 events (Or.inl rfl),
    acceptLoop_closed_iff 0 events⟩
  intro d ds h
  have hc := acceptLoop_chain 0 events
  rw [h] at hc
  exact (List.chain'_cons.mp hc).1

/-- Witness for C7 as amended, at the schedule transient failure, transient
failure, listener closed. -/
theorem acceptLoop_backoff_witness :
    (∀ d ds,
      (acceptLoop 0 [AcceptEvent.tempErr, AcceptEvent.tempErr,
        AcceptEvent.closed]).fst = d :: ds → d = 5000000) ∧
    List.Chain' (fun a b => b = nextDelay a)
      (0 :: (acceptLoop 0 [AcceptEvent.tempErr, AcceptEvent.tempErr,
        AcceptEvent.closed]).fst) ∧
    (∀ d ∈ (acceptLoop 0 [AcceptEvent.tempErr, AcceptEvent.tempErr,
        AcceptEvent.closed]).fst, 5000000 ≤ d ∧ d ≤ 1000000000) ∧
    ((acceptLoop 0 [AcceptEvent.tempErr, AcceptEvent.tempErr,
        AcceptEvent.closed]).snd = true ↔
      AcceptEvent.closed ∈ [AcceptEvent.tempErr, AcceptEvent.tempErr,
        AcceptEvent.closed]) :=
  acceptLoop_backoff_behaviour
    [AcceptEvent.tempErr, AcceptEvent.tempErr, AcceptEvent.closed]

end zbx

namespace monitoring

/-- A list without a dot has no last-dot index. -/
theorem lastDotIndex_of_no_dot {l : List Char} (h : '.' ∉ l) :
    lastDotIndex l = none := by
  induction l with
  | nil => rfl
  | cons c rest ih =>
    have hc : c ≠ '.' := fun hc => h (hc ▸ List.mem_cons_self c rest)
    have hr : '.' ∉ rest := fun hr => h (List.mem_cons_of_mem c hr)
    simp [lastDotIndex, ih hr, hc]

/-- The last dot of `name.param` sits at the end of `name` when neither
part contains a dot. -/
theorem lastDotIndex_append {ns sfx : List Char} (h1 : '.' ∉ ns)
    (h2 : '.' ∉ sfx) :
    lastDotIndex (ns ++ '.' :: sfx) = some ns.length := by
  induction ns with
  | nil => simp [lastDotIndex, lastDotIndex_of_no_dot h2]
  | cons c rest ih =>
    have hr : '.' ∉ rest := fun hr => h1 (List.mem_cons_of_mem c hr)
    simp [lastDotIndex, ih hr]

/-- Evaluation of the item handler on a key of the shape `name.param` when
neither part contains a dot: look the name up and dispatch on the
parameter. -/
theorem itemHandler_split (store : List (String × targetData)) (now : Int)
    (name param : String) (h1 : '.' ∉ name.data) (h2 : '.' ∉ param.data) :
    itemHandler store now (String.mk (name.data ++ '.' :: param.data)) =
      match getData store name with
      | none => zbx.ZValue.vnull
      | some data =>
        if param = "responseTime" then
          zbx.ZValue.vint
            (if data.Running && msOf data.LastResponseTime < msOf (now - data.Start)
             then msOf (now - data.Start) else msOf data.LastResponseTime)
        else if param = "statusCode" then zbx.ZValue.vint data.LastStatusCode
        else if param = "status" then zbx.ZValue.vstr data.LastStatus
        else zbx.ZValue.vnull := by
  simp only [itemHandler, lastDotIndex_append h1 h2]
  have htake : (name.data ++ '.' :: param.data).take name.data.length = name.data :=
    List.take_left name.data ('.' :: param.data)
  have hdrop : (name.data ++ '.' :: param.data).drop (name.data.length + 1) = param.data := by
    rw [← List.drop_drop 1 name.data.length, List.drop_left]
    rfl
  rw [htake, hdrop]

/-- Claim C5: for every stored target state and query time, `responseTime`
resolves to the last duration in whole milliseconds when no probe is
running, and to the greater of that and the ongoing elapsed time when one
is; `statusCode` resolves to the stored status code and `status` to the
stored status line. -/
theorem itemHandler_parameter_values (store : List (String × targetData))
    (now : Int) (name : String) (d : targetData)
    (h1 : '.' ∉ name.data) (hd : getData store name = some d) :
    itemHandler store now (name ++ ".responseTime") =
      zbx.ZValue.vint
        (if d.Running then max (msOf d.LastResponseTime) (msOf (now - d.Start))
         else msOf d.LastResponseTime) ∧
    itemHandler store now (name ++ ".statusCode") =
      zbx.ZValue.vint d.LastStatusCode ∧
    itemHandler store now (name ++ ".status") =
      zbx.ZValue.vstr d.LastStatus := by
  have e1 : (name ++ ".responseTime") =
      String.mk (name.data ++ '.' :: ("responseTime" : String).data) := rfl
  have e2 : (name ++ ".statusCode") =
      String.mk (name.data ++ '.' :: ("statusCode" : String).data) := rfl
  have e3 : (name ++ ".status") =
      String.mk (name.data ++ '.' :: ("status" : String).data) := rfl
  refine ⟨?_, ?_, ?_⟩
  · rw [e1, itemHandler_split store now name "responseTime" h1 (by decide), hd]
    dsimp only
    rcases hr : d.Running with _ | _
    · simp [hr]
    · simp only [hr, Bool.true_and, if_true]
      by_cases hlt : msOf d.LastResponseTime < msOf (now - d.Start)
      · simp [hlt, max_eq_right hlt.le]
      · simp [hlt, max_eq_left (not_lt.mp hlt)]
  · rw [e2, itemHandler_split store now name "statusCode" h1 (by decide), hd]
    simp
  · rw [e3, itemHandler_split store now name "status" h1 (by decide), hd]
    simp

/-- Witness for C5: a target named api probed in 42ms (running, 100ms
elapsed) resolves responseTime 100, statusCode 200, status 200 OK. -/
theorem itemHandler_parameter_values_witness :
    itemHandler [("api", ⟨0, true, 42000000, "200 OK", 200⟩)] 100000000
        ("api" ++ ".responseTime") =
      zbx.ZValue.vint
        (if (true : Bool) then max (msOf 42000000) (msOf (100000000 - 0))
         else msOf 42000000) ∧
    itemHandler [("api", ⟨0, true, 42000000, "200 OK", 200⟩)] 100000000
        ("api" ++ ".statusCode") = zbx.ZValue.vint 200 ∧
    itemHandler [("api", ⟨0, true, 42000000, "200 OK", 200⟩)] 100000000
        ("api" ++ ".status") = zbx.ZValue.vstr "200 OK" :=
  itemHandler_parameter_values [("api", ⟨0, true, 42000000, "200 OK", 200⟩)]
    100000000 "api" ⟨0, true, 42000000, "200 OK", 200⟩ (by decide) rfl

/-- Claim C6: the resolver splits at the last dot, and each soft-failure
case — no dot in the key, a target name absent from the store, or a
parameter outside responseTime, statusCode, status — resolves to the null
value, not a connection or protocol error. -/
theorem itemHandler_soft_failures_null (store : List (String × targetData))
    (now : Int) (key : String)
    (h : lastDotIndex key.data = none ∨
      (∃ sep, lastDotIndex key.data = some sep ∧
        getData store (String.mk (key.data.take sep)) = none) ∨
      (∃ sep, lastDotIndex key.data = some sep ∧
        String.mk (key.data.drop (sep + 1)) ≠ "responseTime" ∧
        String.mk (key.data.drop (sep + 1)) ≠ "statusCode" ∧
        String.mk (key.data.drop (sep + 1)) ≠ "status")) :
    itemHandler store now key = zbx.ZValue.vnull := by
  rcases h with h | ⟨sep, hsep, hget⟩ | ⟨sep, hsep, hp1, hp2, hp3⟩
  · simp [itemHandler, h]
  · simp [itemHandler, hsep, hget]
  · simp only [itemHandler, hsep]
    rcases hg : getData store (String.mk (key.data.take sep)) with _ | d
    · rfl
    · simp [hg, hp1, hp2, hp3]

/-- Witness for C6: a key without a separator resolves to null against an
empty store. -/
theorem itemHandler_soft_failures_witness :
    itemHandler [] 0 "plain" = zbx.ZValue.vnull :=
  itemHandler_soft_failures_null [] 0 "plain" (Or.inl rfl)

/-- Claim C10: at the start of monitoring and while the first probe is in
flight, the stored state keeps status code 0 and an empty status line, so
statusCode queries answer 0 and status queries answer the empty string. -/
theorem initial_state_until_first_completion (now qt : Int) (name : String)
    (h1 : '.' ∉ name.data) :
    initialData.LastStatusCode = 0 ∧ initialData.LastStatus = "" ∧
    (beginProbe initialData now).LastStatusCode = 0 ∧
    (beginProbe initialData now).LastStatus = "" ∧
    (∀ d ∈ [initialData, beginProbe initialData now],
      itemHandler [(name, d)] qt (name ++ ".statusCode") = zbx.ZValue.vint 0 ∧
      itemHandler [(name, d)] qt (name ++ ".status") = zbx.ZValue.vstr "") := by
  refine ⟨rfl, rfl, rfl, rfl, ?_⟩
  intro d hd
  have hget : getData [(name, d)] name = some d := by simp [getData]
  have e2 : (name ++ ".statusCode") =
      String.mk (name.data ++ '.' :: ("statusCode" : String).data) := rfl
  have e3 : (name ++ ".status") =
      String.mk (name.data ++ '.' :: ("status" : String).data) := rfl
  have hcode : itemHandler [(name, d)] qt (name ++ ".statusCode") =
      zbx.ZValue.vint d.LastStatusCode := by
    rw [e2, itemHandler_split [(name, d)] qt name "statusCode" h1 (by decide), hget]
    simp
  have hstat : itemHandler [(name, d)] qt (name ++ ".status") =
      zbx.ZValue.vstr d.LastStatus := by
    rw [e3, itemHandler_split [(name, d)] qt name "status" h1 (by decide), hget]
    simp
  rcases List.mem_cons.mp hd with rfl | hd
  · exact ⟨hcode, hstat⟩
  · rcases List.mem_cons.mp hd with rfl | hd
    · exact ⟨hcode, hstat⟩
    · cases hd

/-- Witness for C10 at a probe started at time 5, queried at time 7,
target named api. -/
theorem initial_state_witness :
    initialData.LastStatusCode = 0 ∧ initialData.LastStatus = "" ∧
    (beginProbe initialData 5).LastStatusCode = 0 ∧
    (beginProbe initialData 5).LastStatus = "" ∧
    (∀ d ∈ [initialData, beginProbe initialData 5],
      itemHandler [("api", d)] 7 ("api" ++ ".statusCode") = zbx.ZValue.vint 0 ∧
      itemHandler [("api", d)] 7 ("api" ++ ".status") = zbx.ZValue.vstr "") :=
  initial_state_until_first_completion 5 7 "api" (by decide)

end monitoring

namespace monitoring

/-- Inversion of a successful `Except` bind. -/
theorem except_bind_ok {α β : Type} {x : Except String α}
    {f : α → Except String β} {b : β}
    (h : Except.bind x f = Except.ok b) :
    ∃ a, x = Except.ok a ∧ f a = Except.ok b := by
  cases x with
  | error e => simp [Except.bind] at h
  | ok a => exact ⟨a, rfl, h⟩

/-- The placeholder block succeeds or fails independently of the body
fields, which it neither reads nor rewrites. -/
theorem applyEnvVars_body_isOk (env : String → String)
    (u : String) (a : authorization) (i : Int) (m : String)
    (fd fd2 : Option (List (String × String))) (j j2 : String) :
    (applyEnvVars env ⟨u, a, i, m, fd, j⟩).isOk =
      (applyEnvVars env ⟨u, a, i, m, fd2, j2⟩).isOk := by
  simp only [applyEnvVars, bind, Except.bind]
  rcases hr1 : replaceWithEnvVar env u with e1 | u1 <;> simp only [hr1]
  rcases hr2 : replaceWithEnvVar env a.token with e2 | u2 <;> simp only [hr2]
  rcases hr3 : replaceWithEnvVar env a.password with e3 | u3 <;> simp only [hr3]
  rcases hr4 : replaceWithEnvVar env a.username with e4 | u4 <;> simp only [hr4]
  rcases hr5 : replaceWithEnvVar env a.type with e5 | u5 <;> simp only [hr5]
  all_goals rfl

/-- The method block only rewrites the method field. -/
theorem checkMethod_fields (k : String) (v w : targetInfo)
    (h : checkMethod k v = Except.ok w) :
    w.Interval = v.Interval ∧ w.Json = v.Json ∧ w.FormData = v.FormData ∧
    w.Url = v.Url ∧ w.Authorization = v.Authorization := by
  simp only [checkMethod] at h
  split_ifs at h <;> cases h <;> exact ⟨rfl, rfl, rfl, rfl, rfl⟩

/-- The POST block passes a non-POST target through unchanged. -/
theorem checkPostBody_skip (compact : String → Except String String)
    (k : String) (v : targetInfo) (h : ¬ v.Method = "POST") :
    checkPostBody compact k v = Except.ok v := by
  simp [checkPostBody, h]

/-- The POST block only rewrites the json field. -/
theorem checkPostBody_fields (compact : String → Except String String)
    (k : String) (v w : targetInfo)
    (h : checkPostBody compact k v = Except.ok w) :
    w.Interval = v.Interval ∧ w.Method = v.Method ∧
    w.Authorization = v.Authorization := by
  simp only [checkPostBody] at h
  split_ifs at h <;>
    first
    | cases h
    | (split at h <;> cases h)
  all_goals exact ⟨rfl, rfl, rfl⟩

/-- The placeholder block only rewrites the url and authorization. -/
theorem applyEnvVars_fields (env : String → String) (v w : targetInfo)
    (h : applyEnvVars env v = Except.ok w) :
    w.Interval = v.Interval ∧ w.Method = v.Method ∧ w.Json = v.Json ∧
    w.FormData = v.FormData := by
  simp only [applyEnvVars, bind] at h
  obtain ⟨u1, hr1, h⟩ := except_bind_ok h
  obtain ⟨u2, hr2, h⟩ := except_bind_ok h
  obtain ⟨u3, hr3, h⟩ := except_bind_ok h
  obtain ⟨u4, hr4, h⟩ := except_bind_ok h
  obtain ⟨u5, hr5, h⟩ := except_bind_ok h
  cases h
  exact ⟨rfl, rfl, rfl, rfl⟩

/-- A target accepted by the per-entry check comes out with interval 10000
when none was configured and the configured value otherwise. -/
theorem checkTarget_interval (compact : String → Except String String)
    (env : String → String) (k : String) (v t' : targetInfo)
    (h : checkAndPrepareTarget compact env k v = Except.ok t') :
    t'.Interval = if v.Interval = 0 then 10000 else v.Interval := by
  simp only [checkAndPrepareTarget, bind] at h
  by_cases h0 : v.Interval = 0 <;>
    [rw [if_pos h0] at h; rw [if_neg h0] at h] <;>
    [rw [if_pos h0]; rw [if_neg h0]] <;>
  · split at h
    · cases h
    · obtain ⟨v2, hm, h⟩ := except_bind_ok h
      obtain ⟨v3, hp, h⟩ := except_bind_ok h
      obtain ⟨u, ha, h⟩ := except_bind_ok h
      have f1 := (checkMethod_fields _ _ _ hm).1
      have f2 := (checkPostBody_fields _ _ _ _ hp).1
      have f3 := (applyEnvVars_fields _ _ _ h).1
      simp [f3, f2, f1]

/-- Claim C8: validation rejects a POST target carrying both a json body
and form data, rejects a POST target carrying neither, and accepts a GET
target regardless of its body fields — acceptance of a non-POST target is
independent of the body fields, and a plain GET target with any body
fields set is accepted. -/
theorem post_body_validation :
    (∀ (compact : String → Except String String) (env : String → String)
        (k : String) (v : targetInfo),
      toUpperGo v.Method = "POST" → v.Json ≠ "" → v.FormData ≠ none →
      (checkAndPrepareTarget compact env k v).isOk = false) ∧
    (∀ (compact : String → Except String String) (env : String → String)
        (k : String) (v : targetInfo),
      toUpperGo v.Method = "POST" → v.Json = "" → v.FormData = none →
      (checkAndPrepareTarget compact env k v).isOk = false) ∧
    (∀ (compact : String → Except String String) (env : String → String)
        (k : String) (v : targetInfo) (j : String)
        (fd : Option (List (String × String))),
      toUpperGo v.Method ≠ "POST" →
      (checkAndPrepareTarget compact env k
          { v with Json := j, FormData := fd }).isOk =
        (checkAndPrepareTarget compact env k v).isOk) ∧
    (∀ (compact : String → Except String String) (env : String → String)
        (k j : String) (fd : Option (List (String × String))),
      (checkAndPrepareTarget compact env k
          ⟨"localhost", authorization.empty, 0, "GET", fd, j⟩).isOk = true) := by
  refine ⟨?_, ?_, ?_, ?_⟩
  · intro compact env k v hm hj hf
    have hm0 : v.Method ≠ "" := by
      intro h0
      rw [h0] at hm
      exact absurd hm (by decide)
    by_cases h0 : v.Interval = 0 <;>
    by_cases hu : v.Url = "" <;>
    simp [checkAndPrepareTarget, checkMethod, checkPostBody, h0, hu, hm0, hm, hj,
      hf, isHTTPMethodSupported, bind, Except.bind, Except.isOk, Except.toBool]
  · intro compact env k v hm hj hf
    have hm0 : v.Method ≠ "" := by
      intro h0
      rw [h0] at hm
      exact absurd hm (by decide)
    by_cases h0 : v.Interval = 0 <;>
    by_cases hu : v.Url = "" <;>
    simp [checkAndPrepareTarget, checkMethod, checkPostBody, h0, hu, hm0, hm, hj,
      hf, isHTTPMethodSupported, bind, Except.bind, Except.isOk, Except.toBool]
  · intro compact env k v j fd h
    by_cases h0 : v.Interval = 0 <;>
    by_cases hu : v.Url = "" <;>
    by_cases hm0 : v.Method = "" <;>
    by_cases hs : isHTTPMethodSupported (toUpperGo v.Method) <;>
    simp [checkAndPrepareTarget, checkMethod, h0, hu, hm0, hs, h, bind,
      Except.bind, Except.isOk, Except.toBool, checkPostBody_skip] <;>
    rcases hab : checkAuthBlock k v.Authorization with e | u <;>
    simp [hab, Except.isOk, Except.toBool] <;>
    exact applyEnvVars_body_isOk env v.Url v.Authorization _ _ fd v.FormData j v.Json
  · intro compact env k j fd
    rfl

/-- Witness for C8: a lowercase-post target with both body fields is
rejected, a POST target with neither is rejected, a get target's
acceptance is unchanged by body fields, and a GET target with both body
fields set is accepted. -/
theorem post_body_validation_witness :
    (checkAndPrepareTarget compactStub envUnset "t"
      ⟨"u", authorization.empty, 0, "post", some [], "x"⟩).isOk = false ∧
    (checkAndPrepareTarget compactStub envUnset "t"
      ⟨"u", authorization.empty, 0, "POST", none, ""⟩).isOk = false ∧
    (checkAndPrepareTarget compactStub envUnset "t"
        ⟨"localhost", authorization.empty, 0, "get", some [("a", "b")], "x"⟩).isOk =
      (checkAndPrepareTarget compactStub envUnset "t"
        ⟨"localhost", authorization.empty, 0, "get", none, ""⟩).isOk ∧
    (checkAndPrepareTarget compactStub envUnset "t"
      ⟨"localhost", authorization.empty, 0, "GET", some [], "x"⟩).isOk = true :=
  ⟨post_body_validation.1 compactStub envUnset "t"
      ⟨"u", authorization.empty, 0, "post", some [], "x"⟩
      (by decide) (by decide) (by decide),
   post_body_validation.2.1 compactStub envUnset "t"
      ⟨"u", authorization.empty, 0, "POST", none, ""⟩
      (by decide) rfl rfl,
   post_body_validation.2.2.1 compactStub envUnset "t"
      ⟨"localhost", authorization.empty, 0, "get", none, ""⟩
      "x" (some [("a", "b")]) (by decide),
   post_body_validation.2.2.2 compactStub envUnset "t" "x" (some [])⟩

/-- Counterexample to claim C9: a target configured with interval -1
passes validation with its interval kept at -1, which is not positive. -/
theorem negative_interval_accepted :
    checkAndPrepareTargets compactStub envUnset cfgNegativeInterval =
      Except.ok [("shop", ⟨"localhost", authorization.empty, -1, "GET", none, ""⟩)] ∧
    ¬ (0 < (-1 : Int)) :=
  ⟨rfl, by decide⟩

/-- Claim C9 as amended: when the whole configuration passes validation,
every target's interval is 10000 when none was configured (zero) and the
configured value otherwise — hence positive whenever the configured value
was nonnegative, but a negatively configured interval is kept. -/
theorem checkTargets_intervals (compact : String → Except String String)
    (env : String → String) (cfg res : List (String × targetInfo))
    (h : checkAndPrepareTargets compact env cfg = Except.ok res) :
    List.Forall₂ (fun a b : String × targetInfo =>
      b.2.Interval = (if a.2.Interval = 0 then 10000 else a.2.Interval) ∧
      (0 ≤ a.2.Interval → 0 < b.2.Interval)) cfg res := by
  induction cfg generalizing res with
  | nil =>
    cases h
    exact List.Forall₂.nil
  | cons kv rest ih =>
    obtain ⟨k, v⟩ := kv
    simp only [checkAndPrepareTargets, bind] at h
    obtain ⟨v', hv, h⟩ := except_bind_ok h
    obtain ⟨rest', hr, h⟩ := except_bind_ok h
    cases h
    refine List.Forall₂.cons ⟨checkTarget_interval _ _ _ _ _ hv, ?_⟩ (ih _ hr)
    intro hnn
    simp only at hnn
    rw [checkTarget_interval _ _ _ _ _ hv]
    by_cases h0 : v.Interval = 0 <;> simp [h0] <;> omega

/-- Witness for C9 as amended, at the one-target configuration with
interval -1. -/
theorem checkTargets_intervals_witness :
    List.Forall₂ (fun a b : String × targetInfo =>
      b.2.Interval = (if a.2.Interval = 0 then 10000 else a.2.Interval) ∧
      (0 ≤ a.2.Interval → 0 < b.2.Interval)) cfgNegativeInterval
      [("shop", ⟨"localhost", authorization.empty, -1, "GET", none, ""⟩)] :=
  checkTargets_intervals compactStub envUnset cfgNegativeInterval
    [("shop", ⟨"localhost", authorization.empty, -1, "GET", none, ""⟩)] rfl

end monitoring
